import Mathlib

/- Shallow embedding of the snape virtual-environment manager.

   Embedded source files:
     src/snape/virtualenv/internal.py  (locator and lifecycle functions)
     src/snape/virtualenv/util.py      (validation helpers)
     src/snape/cli/commands/attach.py  (snape_attach)
     src/snape/cli/commands/detach.py  (snape_detach)

   Modelling conventions:
   - An absolute POSIX path is a list of components: "/a/b" is ["a", "b"]
     and the filesystem root "/" is [].
   - `pathlib.Path.resolve()` (without symbolic links) is the lexical
     normalisation `normAbs`: it drops "" and "." components and lets ".."
     remove the preceding component ("/.." stays "/").  `expanduser` is the
     identity for paths that do not start with "~" and is not modelled.
   - The filesystem is a finite tree of named entries (`Entry`).  A real
     directory never holds two entries of the same name; that well-formedness
     is the `fsWf` predicate and is assumed where it matters.
   - External capabilities (stdin prompts, `shutil.rmtree`, `venv.create`,
     pip) are modelled as function parameters; performed side effects are
     recorded in an action trace (`FsAction`). -/

/-! ### Strings as slash-separated component lists

Python's `str.split("/")` / `"/".join(...)` pair, used by `pathlib` parsing
and by `get_snape_env_name`, modelled over `List Char`. -/

def splitSlash : List Char → List (List Char)
  | [] => [[]]
  | c :: cs =>
    if c = '/' then [] :: splitSlash cs
    else
      match splitSlash cs with
      | [] => [[c]]
      | p :: ps => (c :: p) :: ps

def joinSlash : List (List Char) → List Char
  | [] => []
  | [p] => p
  | p :: ps => p ++ '/' :: joinSlash ps

def pySplitSlash (s : String) : List String :=
  (splitSlash s.toList).map String.mk

def pyJoinSlash (l : List String) : String :=
  String.mk (joinSlash (l.map String.toList))

/-! ### Path arithmetic -/

/-- A component an already-resolved path may contain: not empty, not the
current-directory and not the parent-directory marker. -/
def normalComp (c : String) : Bool :=
  !(c == "" || c == "." || c == "..")

/-- The parsing `pathlib.PurePath` applies to a path string: split on "/",
drop empty and "." components (".." is kept and only handled by
`resolve()`). -/
def parseParts (s : String) : List String :=
  (pySplitSlash s).filter (fun c => !(c == "" || c == "."))

/-- One pass of lexical `Path.resolve()` over the remaining components:
`acc` is the already-resolved absolute prefix. ".." removes the last
resolved component (at the root it stays at the root, as "/.." is "/"). -/
def resolveComps (acc : List String) : List String → List String
  | [] => acc
  | c :: cs =>
    if c = "" || c = "." then resolveComps acc cs
    else if c = ".." then resolveComps acc.dropLast cs
    else resolveComps (acc ++ [c]) cs

/-- Model of `snape.util.path.absolute_path` on a path given as components:
`Path(...).expanduser().resolve().absolute()` without symbolic links. -/
def normAbs (p : List String) : List String :=
  resolveComps [] p

/-- The path string `s` is absolute (starts with "/"). -/
def isAbsStr (s : String) : Bool :=
  match s.toList with
  | c :: _ => c == '/'
  | [] => false

/-- Model of `pathlib`'s `/` operator followed by string parsing: an absolute
right-hand operand replaces the left-hand path entirely. -/
def pathJoin (p : List String) (s : String) : List String :=
  if isAbsStr s then parseParts s else p ++ parseParts s

/-- Model of `Path.name`: the final path component, "" for the root. -/
def pathName (p : List String) : String :=
  p.getLastD ""

/-- Model of `root ∈ path.parents`: `root` is a strict ancestor of `path`. -/
def strictlyBelow (p q : List String) : Bool :=
  decide (p.length < q.length) && q.take p.length == p

/-! ### Filesystem model

A finite tree of named entries.  `lookupIn es p` resolves the component
list `p` inside the children list `es` (the root directory's entries). -/

inductive Entry where
  | file (name : String)
  | dir (name : String) (children : List Entry)

def Entry.name : Entry → String
  | .file n => n
  | .dir n _ => n

/-- What a path points at: a regular file or a directory (with its
children). -/
inductive NodeView where
  | file
  | dir (children : List Entry)

def lookupIn : List Entry → List String → Option NodeView
  | es, [] => some (.dir es)
  | es, n :: rest =>
    match es.find? (fun e => e.name == n) with
    | none => none
    | some (.file _) => if rest.isEmpty then some .file else none
    | some (.dir _ cs) => lookupIn cs rest

/-- Model of `Path.is_dir()`: the operating system resolves the path first. -/
def isDir (fs : List Entry) (p : List String) : Bool :=
  match lookupIn fs (normAbs p) with
  | some (.dir _) => true
  | _ => false

/-- Model of `Path.is_file()`: the operating system resolves the path first. -/
def isFile (fs : List Entry) (p : List String) : Bool :=
  match lookupIn fs (normAbs p) with
  | some .file => true
  | _ => false

/-! ### Process-wide configuration (snape.env_var, snape.config)

`SNAPE_ROOT_PATH`, `SNAPE_VENV`, `VIRTUAL_ENV`, the current working
directory, the forbidden-name list `FORBIDDEN_ENV_NAMES` and the
shell-dependent activation artifact `SHELLS[SHELL]["activate_file"]`,
all fixed at process start. -/

structure SnapeConfig where
  snapeRoot : List String
  snapeVenv : String
  virtualEnv : Option (List String)
  cwd : List String
  forbidden : List String
  activateFile : String

/-! ### Locator functions (snape/virtualenv/util.py, internal.py) -/

/-- Model of `is_virtual_env` (util.py): directory containing the shell's activation
artifact and a python binary. -/
def is_virtual_env (cfg : SnapeConfig) (fs : List Entry) (env : List String) : Bool :=
  isDir fs env && isFile fs (pathJoin env cfg.activateFile)
    && isFile fs (pathJoin env "bin/python")

/-- Model of `is_active_virtual_env` (util.py): `VIRTUAL_ENV` is set and, canonicalised,
equals the canonicalised given path. -/
def is_active_virtual_env (cfg : SnapeConfig) (env : List String) : Bool :=
  match cfg.virtualEnv with
  | none => false
  | some v => normAbs v == normAbs env

/-- The unified error type; each constructor is one concrete Python
exception site of the embedded sources. -/
inductive SnapeErr where
  /-- `NameError`: illegal environment name. -/
  | illegalName
  /-- `RuntimeError` in `get_snape_env_path`: no name given for a global
  environment while `warn_argument_conflicts` is set. -/
  | noNameConflict
  /-- `ValueError` in `get_snape_env_path`: falsy name for a global
  environment. -/
  | noName
  /-- `NotADirectoryError`: a directory was required. -/
  | notADirectory
  /-- `SystemError` in `ensure_virtual_env`: directory exists but is not a
  virtual environment. -/
  | invalidEnvironment
  /-- `IsADirectoryError` in `create_new_snape_env`: the target directory
  exists and is not an environment that could be overwritten. -/
  | pathOccupied
  /-- `RuntimeError` in `delete_snape_env`: the environment is active. -/
  | environmentActive
  /-- `SnapeCancel`: the operator declined a confirmation. -/
  | cancel
  /-- `SystemError` in `delete_snape_env`: the tree still exists after
  `rmtree`. -/
  | deletionIncomplete
  /-- `RuntimeError` in `get_env_packages`: `pip freeze` failed. -/
  | packagesUnreadable
  /-- `RuntimeError` in attach/detach: `pip install` failed. -/
  | installFailed
  /-- `TypeError`: `None` used where a path was required
  (`install_packages(None, ...)` with a non-empty package list). -/
  | typeMismatch
  /-- `NameError` in `snape_detach`: the identifier `old_venv_path` used in
  the question string is unbound. -/
  | unboundName
  /-- `StopIteration` escaping `get_local_snape_env`. -/
  | stopIteration
deriving DecidableEq

/-- Model of `ensure_virtual_env` (util.py): the checked entry point turning a path
into a verified environment path. -/
def ensure_virtual_env (cfg : SnapeConfig) (fs : List Entry) (env : List String) :
    Except SnapeErr (List String) :=
  if !(isDir fs env) then .error .notADirectory
  else if !(is_virtual_env cfg fs env) then .error .invalidEnvironment
  else .ok (normAbs env)

/-- Model of `is_global_snape_env_path` (internal.py): `SNAPE_ROOT_PATH` is among the
parents of the canonicalised path; optionally the path must also currently
be a directory. -/
def is_global_snape_env_path (cfg : SnapeConfig) (fs : List Entry)
    (env : List String) (check_exists : Bool) : Bool :=
  strictlyBelow cfg.snapeRoot (normAbs env) && (!check_exists || isDir fs env)

/-- Model of `is_global_snape_env` (internal.py). -/
def is_global_snape_env (cfg : SnapeConfig) (fs : List Entry) (env : List String) : Bool :=
  is_global_snape_env_path cfg fs env true && is_virtual_env cfg fs env

/-- Model of `get_snape_env_path` (internal.py): pure path arithmetic from
(name, locality) to an absolute path. -/
def get_snape_env_path (cfg : SnapeConfig) (name : Option String) (lcl : Bool)
    (warn_argument_conflicts : Bool) : Except SnapeErr (List String) :=
  if (match name with | some n => cfg.forbidden.contains n | none => false) then
    .error .illegalName
  else if warn_argument_conflicts && name.isNone && !lcl then
    .error .noNameConflict
  else if lcl then
    .ok (normAbs (pathJoin cfg.cwd cfg.snapeVenv))
  else
    match name with
    | none => .error .noName
    | some n =>
      if n = "" then .error .noName
      else .ok (normAbs (pathJoin cfg.snapeRoot n))

/-- The `while global_env.parent != SNAPE_ROOT_PATH` loop of
`get_snape_env_name`, collecting final components while ascending; the
`fuel` argument (always called with the component count of `g`, an upper
bound on the number of iterations) makes the recursion structural.  The
Python loop does not terminate when `root` is no ancestor of `g`; it is
only ever entered when it is, and then the fuel is never exhausted. -/
def nameLoopF (root : List String) : Nat → List String → List String
  | 0, g => [pathName g]
  | fuel + 1, g =>
    if g.isEmpty || g.dropLast == root then [pathName g]
    else pathName g :: nameLoopF root fuel g.dropLast

/-- Model of `get_snape_env_name` (internal.py): the canonical display name of an
environment path.  (The Python source's `if global_env.parent is None`
branch is unreachable, `pathlib` parents are never `None`, and is not
modelled.) -/
def get_snape_env_name (cfg : SnapeConfig) (env : List String) : Option String :=
  let e := normAbs env
  if strictlyBelow cfg.snapeRoot e then
    some (pyJoinSlash (nameLoopF cfg.snapeRoot e.length e).reverse)
  else if pathName e == cfg.snapeVenv then some (pathName e)
  else none

/-! ### Lifecycle manager (internal.py): create and delete

Side effects are recorded as a trace of actions; interactive confirmation
(`snape.util.ask`) is an injected function `askFn` from (prompt, default)
to the operator's boolean answer, and `shutil.rmtree` is an injected
filesystem transformation `rmtreeFn` (its partial-failure modes are part
of its contract, not of this code). -/

inductive FsAction where
  /-- `python_venv.create(env, with_pip=True, clear=.., upgrade_deps=.., prompt=..)`. -/
  | venvCreate (env : List String) (clear : Bool) (upgradeDeps : Bool) (prompt : Option String)
  /-- `open(path, "w")` followed by writing `content`. -/
  | fileWrite (path : List String) (content : String)
  /-- `shutil.rmtree(path)`. -/
  | rmtree (path : List String)
  /-- `ask(question, default)` on the interactive console. -/
  | prompt (question : String) (default : Bool)
deriving DecidableEq

/-- Actions that change the filesystem (everything except prompting). -/
def FsAction.isMutation : FsAction → Bool
  | .venvCreate _ _ _ _ => true
  | .fileWrite _ _ => true
  | .rmtree _ => true
  | .prompt _ _ => false

/-- Python string formatting of an optional value (`f"{x}"` prints `None`). -/
def optStr : Option String → String
  | none => "None"
  | some s => s

/-- Python's `a or b` on optional strings (`""` is falsy). -/
def pyOrStr (a b : Option String) : Option String :=
  match a with
  | none => b
  | some s => if s = "" then b else some s

/-- The display name `create_new_snape_env` computes:
`env_name or get_snape_env_name(env)`. -/
def createDisplayName (cfg : SnapeConfig) (env : List String)
    (env_name : Option String) : String :=
  optStr (pyOrStr env_name (get_snape_env_name cfg env))

/-- The overwrite prompt of `create_new_snape_env`. -/
def overwritePromptMsg (ename : String) : String :=
  "Environment \x27" ++ ename ++ "\x27 does already exist. Overwrite?"

/-- Model of `create_new_snape_env` (internal.py).  `overwrite = none` is Python's
`None` ("ask").  On success the returned trace ends with the external
`venv.create` call (whose `clear` flag is the truthiness of the final
`overwrite` value) and the `.gitignore` write; error returns happen before
any mutation. -/
def create_new_snape_env (cfg : SnapeConfig) (fs : List Entry)
    (askFn : String → Bool → Bool) (env : List String) (overwrite : Option Bool)
    (autoupdate : Bool) (prompt : Option String) (env_name : Option String) :
    Except SnapeErr (Option (List String)) × List FsAction :=
  let ename := createDisplayName cfg env env_name
  let finish := fun (ow : Option Bool) (tr : List FsAction) =>
    (Except.ok (some (normAbs env)),
      tr ++ [FsAction.venvCreate env (ow == some true) autoupdate prompt,
             FsAction.fileWrite (env ++ [".gitignore"]) "*\n"])
  if cfg.forbidden.contains (pathName env) then (.error .illegalName, [])
  else if isFile fs env then (.error .notADirectory, [])
  else if isDir fs env then
    if !(is_virtual_env cfg fs env) then (.error .pathOccupied, [])
    else
      match overwrite with
      | none =>
        if !(askFn (overwritePromptMsg ename) false) then
          (.ok none, [FsAction.prompt (overwritePromptMsg ename) false])
        else
          finish (some true) [FsAction.prompt (overwritePromptMsg ename) false]
      | some ow => finish (some ow) []
  else finish overwrite []

/-- The confirmation prompt of `delete_snape_env`. -/
def deletePromptMsg (locality ename : String) : String :=
  "Are you sure you want to delete the " ++ locality ++ " environment \x27"
    ++ ename ++ "\x27?"

/-- Model of `delete_snape_env` (internal.py).  Returns the outcome, the action
trace, and the filesystem after the call (`rmtreeFn` models
`shutil.rmtree`, which may fail to remove everything; the source re-checks
`env.is_dir()` afterwards). -/
def delete_snape_env (cfg : SnapeConfig) (fs : List Entry)
    (askFn : String → Bool → Bool) (rmtreeFn : List Entry → List String → List Entry)
    (env : List String) (do_ask : Bool) (ignore_active : Bool) :
    Except SnapeErr Unit × List FsAction × List Entry :=
  let ename := optStr (get_snape_env_name cfg env)
  if !ignore_active && is_active_virtual_env cfg env then
    (.error .environmentActive, [], fs)
  else
    let locality := if is_global_snape_env cfg fs env then "global" else "local"
    let q := deletePromptMsg locality ename
    if !do_ask then
      let fs' := rmtreeFn fs env
      if isDir fs' env then (.error .deletionIncomplete, [FsAction.rmtree env], fs')
      else (.ok (), [FsAction.rmtree env], fs')
    else if askFn q false then
      let fs' := rmtreeFn fs env
      if isDir fs' env then
        (.error .deletionIncomplete, [FsAction.prompt q false, FsAction.rmtree env], fs')
      else (.ok (), [FsAction.prompt q false, FsAction.rmtree env], fs')
    else (.error .cancel, [FsAction.prompt q false], fs)

/-! ### Enumeration (internal.py)

`_get_environments` recursively walks a directory: a valid environment is
reported and not descended into, other directories are recursed into,
files are ignored.  The walk is embedded structurally over the directory
tree; checking `is_virtual_env(root / name)` on a child directory entry
with children `cs` amounts to looking the two artifacts up inside `cs`. -/

def isFileIn (cs : List Entry) (p : List String) : Bool :=
  match lookupIn cs p with
  | some .file => true
  | _ => false

/-- Model of `is_virtual_env(full_path)` for a directory entry with children `cs`:
the entry is a directory, so only the two artifact lookups remain. -/
def venvEntryChildren (cfg : SnapeConfig) (cs : List Entry) : Bool :=
  isFileIn cs (parseParts cfg.activateFile) && isFileIn cs (parseParts "bin/python")

mutual

/-- The body of `_get_environments`'s loop for one directory entry at
`root / e.name`: files are skipped, a valid environment is reported
without descending, any other directory is recursed into. -/
def envsOfEntry (cfg : SnapeConfig) (root : List String) : Entry → List (List String)
  | .file _ => []
  | .dir n cs =>
    if venvEntryChildren cfg cs then [root ++ [n]]
    else envsOfEntries cfg (root ++ [n]) cs

/-- Model of `for env in os.listdir(root)` over the children of a directory. -/
def envsOfEntries (cfg : SnapeConfig) (root : List String) : List Entry → List (List String)
  | [] => []
  | e :: es => envsOfEntry cfg root e ++ envsOfEntries cfg root es

end


/-- Model of `_get_environments(root)` (internal.py): `[]` when `root` is not a
directory, otherwise the recursive walk over its children. -/
def _get_environments (cfg : SnapeConfig) (fs : List Entry) (root : List String) :
    List (List String) :=
  match lookupIn fs (normAbs root) with
  | some (.dir cs) => envsOfEntries cfg root cs
  | _ => []

/-- Model of `get_global_snape_envs` (internal.py). -/
def get_global_snape_envs (cfg : SnapeConfig) (fs : List Entry) : List (List String) :=
  _get_environments cfg fs cfg.snapeRoot

/-! Well-formedness of a directory tree: sibling names are distinct, at
every level.  `os.listdir` can never report the same name twice, so every
real filesystem tree satisfies this. -/

def allDifferent : List String → Bool
  | [] => true
  | x :: xs => !(xs.contains x) && allDifferent xs

def entryNames (es : List Entry) : List String :=
  es.map Entry.name

mutual

def entryWf : Entry → Bool
  | .file _ => true
  | .dir _ cs => allDifferent (entryNames cs) && entriesAllWf cs

def entriesAllWf : List Entry → Bool
  | [] => true
  | e :: es => entryWf e && entriesAllWf es

end


/-- A whole tree (a root children list) is well formed. -/
def fsWf (fs : List Entry) : Bool :=
  allDifferent (entryNames fs) && entriesAllWf fs

/-! ### Local environments (internal.py) -/

/-- Model of `iter_local_snape_envs`: walk from `cwd` through every ancestor
directory (the loop guard `parent != self` stops at the filesystem root,
which is never checked itself), yielding `<dir>/<SNAPE_VENV>` whenever that
is a valid environment.  The lazy generator is embedded as the list of its
yields. -/
def iter_local_snape_envs (cfg : SnapeConfig) (fs : List Entry)
    (cwd : List String) : List (List String) :=
  if h : cwd = [] then []
  else
    (if is_virtual_env cfg fs (pathJoin cwd cfg.snapeVenv)
     then [pathJoin cwd cfg.snapeVenv] else [])
    ++ iter_local_snape_envs cfg fs cwd.dropLast
termination_by cwd.length
decreasing_by
  simp only [List.length_dropLast]
  have : 0 < cwd.length := List.length_pos.mpr h
  omega

/-- Model of `get_local_snape_envs` (internal.py): the generator, forced to a list. -/
def get_local_snape_envs (cfg : SnapeConfig) (fs : List Entry)
    (cwd : List String) : List (List String) :=
  iter_local_snape_envs cfg fs cwd

/-- Model of `get_local_snape_env` (internal.py): `next(generator)` with no default:
the first yield, or an escaping `StopIteration` when the generator is
exhausted immediately. -/
def get_local_snape_env (cfg : SnapeConfig) (fs : List Entry)
    (cwd : List String) : Except SnapeErr (List String) :=
  match iter_local_snape_envs cfg fs cwd with
  | [] => .error .stopIteration
  | e :: _ => .ok e

/-- The ancestor directories the walk visits: `cwd` and every ancestor
above it, excluding the filesystem root. -/
def ancestorChain (cwd : List String) : List (List String) :=
  if h : cwd = [] then [] else cwd :: ancestorChain cwd.dropLast
termination_by cwd.length
decreasing_by
  simp only [List.length_dropLast]
  have : 0 < cwd.length := List.length_pos.mpr h
  omega

/-! ### attach / detach (snape/cli/commands/attach.py, detach.py)

`copyPackageSet`.  The pip capabilities are injected: `pipFreeze` returns
the package manifest of an environment, or `none` when `pip freeze` fails;
`pipInstallOk` is the success of a real `pip install` invocation.  Effects
of `venv.create`/pip are recorded in the trace and not replayed into the
model tree. -/

/-- Model of `snape.util.path.absolute_path` applied to a path string: a relative
string resolves against the working directory. -/
def absolutePathStr (cfg : SnapeConfig) (s : String) : List String :=
  normAbs (pathJoin cfg.cwd s)

/-- Model of `install_packages` (util.py) as called by attach: `True` without any
pip call when the package list is empty; a `TypeError` when the target
environment is Python `None` (possible when `create_new_snape_env`
returned `None`); otherwise the external pip outcome. -/
def install_packages (pipInstallOk : Bool) (env : Option (List String))
    (packages : List String) : Except SnapeErr Bool :=
  if packages.isEmpty then .ok true
  else
    match env with
    | none => .error .typeMismatch
    | some _ => .ok pipInstallOk

/-- The confirmation question of `snape_attach`. -/
def attachQuestionMsg (locality name env : String) : String :=
  "Do you want to create a new " ++ locality ++ " environment named \x27"
    ++ name ++ "\x27 with the requirements of \x27" ++ env ++ "\x27?"

/-- Model of `snape_attach` (attach.py).  Returns the outcome (the Python function
always returns `None` on success) and the action trace. -/
def snape_attach (cfg : SnapeConfig) (fs : List Entry)
    (askFn : String → Bool → Bool) (rmtreeFn : List Entry → List String → List Entry)
    (pipFreeze : List String → Option (List String)) (pipInstallOk : Bool)
    (env : String) (here : Bool) (global_name : Option String)
    (ignore_active do_ask do_update overwrite delete_old requirements_quiet : Bool) :
    Except SnapeErr Unit × List FsAction :=
  match ensure_virtual_env cfg fs (absolutePathStr cfg env) with
  | .error e => (.error e, [])
  | .ok old_venv =>
    -- "Old environment is already known to snape" / "Nothing to do"
    if old_venv.dropLast == cfg.snapeRoot then (.ok (), [])
    else
      match get_snape_env_path cfg global_name here true with
      | .error e => (.error e, [])
      | .ok new_venv_path =>
        -- "New environment points to old name" / "Nothing to do"
        if new_venv_path == old_venv then (.ok (), [])
        else
          match pipFreeze old_venv with
          | none => (.error .packagesUnreadable, [])
          | some packages =>
            let locality := if here then "local" else "global"
            let q := attachQuestionMsg locality (pathName new_venv_path) env
            if do_ask && !(askFn q true) then (.error .cancel, [FsAction.prompt q true])
            else
              let tr0 : List FsAction := if do_ask then [FsAction.prompt q true] else []
              let ow : Option Bool := if overwrite then some true else none
              match create_new_snape_env cfg fs askFn new_venv_path ow do_update none none with
              | (.error e, tr) => (.error e, tr0 ++ tr)
              | (.ok new_venv, tr) =>
                match install_packages pipInstallOk new_venv packages with
                | .error e => (.error e, tr0 ++ tr)
                | .ok ok =>
                  if !ok then (.error .installFailed, tr0 ++ tr)
                  else if delete_old then
                    match delete_snape_env cfg fs askFn rmtreeFn old_venv do_ask ignore_active with
                    | (r, tr2, _) => (r, tr0 ++ tr ++ tr2)
                  else (.ok (), tr0 ++ tr)

/-- Model of `snape_detach` (detach.py).  Returns the new environment path (or
`None` for the no-op branch) and the action trace.  When the source and
destination differ, the source code unconditionally evaluates the question
f-string referencing the unbound identifier `old_venv_path` and dies with
a `NameError` right after reading the package list. -/
def snape_detach (cfg : SnapeConfig) (fs : List Entry)
    (pipFreeze : List String → Option (List String))
    (path : String) (here : Bool) (global_name : Option String)
    (overwrite : Option Bool) (do_update delete_old requirements_quiet do_ask ignore_active : Bool) :
    Except SnapeErr (Option (List String)) × List FsAction :=
  match get_snape_env_path cfg global_name here true with
  | .error e => (.error e, [])
  | .ok snape_venv_path =>
    match ensure_virtual_env cfg fs snape_venv_path with
    | .error e => (.error e, [])
    | .ok snape_venv =>
      let user_venv_path := absolutePathStr cfg path
      -- "New environment points to old name" / "Nothing to do"
      if user_venv_path == snape_venv_path then (.ok none, [])
      else
        match pipFreeze snape_venv with
        | none => (.error .packagesUnreadable, [])
        | some _packages => (.error .unboundName, [])

/-! ### The nesting checker for enumeration results -/

/-- No element of `l` lies strictly below another element of `l`. -/
def noNestedPaths (l : List (List String)) : Bool :=
  l.all (fun p => l.all (fun q => !(strictlyBelow p q)))

/-! ### Concrete sample data used to evaluate the theorems -/

/-- Children of a well-formed environment directory for the `bash`-style
activation artifact "bin/activate". -/
def venvCs : List Entry :=
  [Entry.dir "bin" [Entry.file "activate", Entry.file "python"]]

/-- A sample configuration: global root "/root", local marker ".venv",
working directory "/w", the seed forbidden names, no active environment. -/
def cfgW : SnapeConfig :=
  { snapeRoot := ["root"], snapeVenv := ".venv", virtualEnv := none,
    cwd := ["w"], forbidden := ["here", "--here"], activateFile := "bin/activate" }

/-- Variant of `cfgW` with "/root/demo" as the active environment. -/
def cfgActive : SnapeConfig :=
  { cfgW with virtualEnv := some ["root", "demo"] }

/-- A sample tree: the global environment "/root/demo" and the local
environment "/w/.venv". -/
def fsW : List Entry :=
  [Entry.dir "root" [Entry.dir "demo" venvCs], Entry.dir "w" [Entry.dir ".venv" venvCs]]

/-- Sample tree where "/root/here" is an existing regular file whose name is forbidden. -/
def fsFileHere : List Entry :=
  [Entry.dir "root" [Entry.file "here"]]

/-- Sample tree where "/root/f" is an existing regular file with a legal name. -/
def fsPlainFile : List Entry :=
  [Entry.dir "root" [Entry.file "f"]]

/-- Sample tree where "/root/d" is an existing directory that is not an environment. -/
def fsPlainDir : List Entry :=
  [Entry.dir "root" [Entry.dir "d" []]]

/-- A tree whose global root holds a valid environment "a" that itself
contains another environment-shaped subtree under "a/lib", plus a plain
directory "b" with a nested environment "b/c" and a stray file. -/
def fsNested : List Entry :=
  [Entry.dir "root"
    [Entry.dir "a" (venvCs ++ [Entry.dir "lib" venvCs]),
     Entry.dir "b" [Entry.dir "c" venvCs, Entry.file "stray"]]]

/-- An operator that answers "no" to every prompt. -/
def askNo : String → Bool → Bool := fun _ _ => false

/-- An operator that answers "yes" to every prompt. -/
def askYes : String → Bool → Bool := fun _ _ => true

/-- An `rmtree` that fails to remove anything. -/
def rmKeep : List Entry → List String → List Entry := fun fs _ => fs

/-- An `rmtree` that removes everything. -/
def rmAll : List Entry → List String → List Entry := fun _ _ => []

/-! ### Theorems -/

theorem splitSlash_ne_nil (l : List Char) : splitSlash l ≠ [] := by
  cases l with
  | nil => simp [splitSlash]
  | cons c cs =>
    simp only [splitSlash]
    by_cases h : c = '/'
    · simp [h]
    · simp only [if_neg h]
      cases hs : splitSlash cs <;> simp

theorem joinSlash_cons_cons (c : Char) (p : List Char) (ps : List (List Char)) :
    joinSlash ((c :: p) :: ps) = c :: joinSlash (p :: ps) := by
  cases ps <;> simp [joinSlash]

theorem joinSlash_splitSlash (l : List Char) : joinSlash (splitSlash l) = l := by
  induction l with
  | nil => simp [splitSlash, joinSlash]
  | cons c cs ih =>
    simp only [splitSlash]
    by_cases h : c = '/'
    · simp only [if_pos h]
      cases hs : splitSlash cs with
      | nil => exact absurd hs (splitSlash_ne_nil cs)
      | cons p ps =>
        subst h
        rw [hs] at ih
        simp [joinSlash, ih]
    · simp only [if_neg h]
      cases hs : splitSlash cs with
      | nil => exact absurd hs (splitSlash_ne_nil cs)
      | cons p ps =>
        rw [hs] at ih
        rw [joinSlash_cons_cons, ih]

/-- Components produced by `splitSlash` contain no slash character. -/
theorem splitSlash_no_slash (l : List Char) :
    ∀ p ∈ splitSlash l, '/' ∉ p := by
  induction l with
  | nil => simp [splitSlash]
  | cons c cs ih =>
    simp only [splitSlash]
    by_cases h : c = '/'
    · simp only [if_pos h]
      intro p hp
      rcases List.mem_cons.mp hp with h1 | h1
      · subst h1; simp
      · exact ih p h1
    · simp only [if_neg h]
      cases hs : splitSlash cs with
      | nil => exact absurd hs (splitSlash_ne_nil cs)
      | cons q qs =>
        intro p hp
        rcases List.mem_cons.mp hp with h1 | h1
        · subst h1
          intro hmem
          rcases List.mem_cons.mp hmem with h2 | h2
          · exact h h2.symm
          · have := ih q (by rw [hs]; exact List.mem_cons_self q qs)
            exact this h2
        · exact ih p (by rw [hs]; exact List.mem_cons_of_mem q h1)

theorem pyJoinSlash_pySplitSlash (s : String) : pyJoinSlash (pySplitSlash s) = s := by
  obtain ⟨data⟩ := s
  simp only [pyJoinSlash, pySplitSlash]
  rw [List.map_map]
  have : (String.toList ∘ String.mk) = id := by
    funext l; rfl
  rw [this, List.map_id]
  exact congrArg String.mk (joinSlash_splitSlash data)

theorem strictlyBelow_iff (p q : List String) :
    strictlyBelow p q = true ↔ ∃ s, s ≠ [] ∧ q = p ++ s := by
  simp only [strictlyBelow, Bool.and_eq_true, decide_eq_true_eq, beq_iff_eq]
  constructor
  · rintro ⟨hlt, htake⟩
    refine ⟨q.drop p.length, ?_, ?_⟩
    · intro hnil
      have := congrArg List.length hnil
      simp [List.length_drop] at this
      omega
    · conv_lhs => rw [← List.take_append_drop p.length q]
      rw [htake]
  · rintro ⟨s, hs, rfl⟩
    constructor
    · simp only [List.length_append]
      have : 0 < s.length := List.length_pos.mpr hs
      omega
    · exact List.take_left p s

theorem strictlyBelow_irrefl (p : List String) : strictlyBelow p p = false := by
  simp [strictlyBelow]

theorem resolveComps_append (l1 l2 : List String) :
    ∀ acc, resolveComps acc (l1 ++ l2) = resolveComps (resolveComps acc l1) l2 := by
  induction l1 with
  | nil => intro acc; simp [resolveComps]
  | cons c cs ih =>
    intro acc
    simp only [List.cons_append, resolveComps]
    by_cases h1 : c = "" || c = "."
    · simp only [if_pos h1]; exact ih acc
    · simp only [if_neg h1]
      by_cases h2 : c = ".."
      · simp only [if_pos h2]; exact ih acc.dropLast
      · simp only [if_neg h2]; exact ih (acc ++ [c])

theorem resolveComps_of_normal (l : List String) (h : ∀ c ∈ l, normalComp c = true) :
    ∀ acc, resolveComps acc l = acc ++ l := by
  induction l with
  | nil => intro acc; simp [resolveComps]
  | cons c cs ih =>
    intro acc
    have hc : normalComp c = true := h c (List.mem_cons_self c cs)
    simp only [normalComp, Bool.not_eq_true', Bool.or_eq_false_iff, beq_eq_false_iff_ne,
      ne_eq] at hc
    obtain ⟨⟨hc1, hc2⟩, hc3⟩ := hc
    simp only [resolveComps]
    rw [if_neg (by simp [hc1, hc2]), if_neg hc3]
    rw [ih (fun x hx => h x (List.mem_cons_of_mem c hx)) (acc ++ [c])]
    simp

theorem resolveComps_all_normal (l : List String) :
    ∀ acc, (∀ c ∈ acc, normalComp c = true) →
      ∀ c ∈ resolveComps acc l, normalComp c = true := by
  induction l with
  | nil => intro acc hacc; simpa [resolveComps] using hacc
  | cons c cs ih =>
    intro acc hacc
    simp only [resolveComps]
    by_cases h1 : c = "" || c = "."
    · simp only [if_pos h1]; exact ih acc hacc
    · simp only [if_neg h1]
      by_cases h2 : c = ".."
      · simp only [if_pos h2]
        refine ih acc.dropLast (fun x hx => hacc x ?_)
        exact List.dropLast_sublist acc |>.subset hx
      · simp only [if_neg h2]
        refine ih (acc ++ [c]) (fun x hx => ?_)
        rcases List.mem_append.mp hx with h3 | h3
        · exact hacc x h3
        · have hxc : x = c := by simpa using h3
          rw [hxc]
          have h1' : ¬(c = "" ∨ c = ".") := by simpa using h1
          simp only [normalComp, Bool.not_eq_true', Bool.or_eq_false_iff,
            beq_eq_false_iff_ne, ne_eq]
          exact ⟨⟨fun hh => h1' (Or.inl hh), fun hh => h1' (Or.inr hh)⟩, h2⟩

theorem normAbs_all_normal (p : List String) :
    ∀ c ∈ normAbs p, normalComp c = true :=
  resolveComps_all_normal p [] (by simp)

theorem normAbs_idem (p : List String) : normAbs (normAbs p) = normAbs p := by
  have h := resolveComps_of_normal (normAbs p) (normAbs_all_normal p) []
  simpa [normAbs] using h

theorem normAbs_append_normal (p l : List String) (h : ∀ c ∈ l, normalComp c = true) :
    normAbs (p ++ l) = normAbs p ++ l := by
  unfold normAbs
  rw [resolveComps_append, resolveComps_of_normal l h]

theorem normAbs_append (p q : List String) :
    normAbs (p ++ q) = resolveComps (normAbs p) q := by
  unfold normAbs
  rw [resolveComps_append]

theorem isDir_isFile_false (fs : List Entry) (p : List String)
    (h : isDir fs p = true) : isFile fs p = false := by
  unfold isDir at h
  unfold isFile
  cases hl : lookupIn fs (normAbs p) with
  | none => simp
  | some v => cases v <;> simp_all

/-! ### Invariance of the filesystem predicates under canonicalisation -/

theorem normAbs_pathJoin (p : List String) (s : String) :
    normAbs (pathJoin (normAbs p) s) = normAbs (pathJoin p s) := by
  unfold pathJoin
  cases h : isAbsStr s
  · rw [if_neg (by simp [h]), if_neg (by simp [h])]
    rw [normAbs_append, normAbs_append, normAbs_idem]
  · simp [h]

theorem isDir_congr (fs : List Entry) (p q : List String) (h : normAbs p = normAbs q) :
    isDir fs p = isDir fs q := by
  unfold isDir; rw [h]

theorem isFile_congr (fs : List Entry) (p q : List String) (h : normAbs p = normAbs q) :
    isFile fs p = isFile fs q := by
  unfold isFile; rw [h]

theorem is_virtual_env_normAbs (cfg : SnapeConfig) (fs : List Entry) (env : List String) :
    is_virtual_env cfg fs (normAbs env) = is_virtual_env cfg fs env := by
  unfold is_virtual_env
  rw [isDir_congr fs (normAbs env) env (normAbs_idem env),
    isFile_congr fs _ _ (normAbs_pathJoin env cfg.activateFile),
    isFile_congr fs _ _ (normAbs_pathJoin env "bin/python")]

theorem is_virtual_env_isDir (cfg : SnapeConfig) (fs : List Entry) (env : List String)
    (h : is_virtual_env cfg fs env = true) : isDir fs env = true := by
  unfold is_virtual_env at h
  simp only [Bool.and_eq_true] at h
  exact h.1.1

/-- C3: `ensure_virtual_env` behaves as a trichotomy: a valid environment
path succeeds and yields a canonicalised absolute path that is again a
valid environment; an existing directory that is not a valid environment
fails with the invalid-environment error (`SystemError`); a path that does
not exist as a directory fails with `NotADirectoryError`. -/
theorem ensure_virtual_env_trichotomy (cfg : SnapeConfig) (fs : List Entry)
    (env : List String) :
    (is_virtual_env cfg fs env = true →
      ensure_virtual_env cfg fs env = .ok (normAbs env)
      ∧ is_virtual_env cfg fs (normAbs env) = true) ∧
    (isDir fs env = true → is_virtual_env cfg fs env = false →
      ensure_virtual_env cfg fs env = .error .invalidEnvironment) ∧
    (isDir fs env = false → ensure_virtual_env cfg fs env = .error .notADirectory) := by
  refine ⟨?_, ?_, ?_⟩
  · intro hv
    have hd : isDir fs env = true := is_virtual_env_isDir cfg fs env hv
    constructor
    · unfold ensure_virtual_env
      simp [hd, hv]
    · rw [is_virtual_env_normAbs]; exact hv
  · intro hd hv
    unfold ensure_virtual_env
    simp [hd, hv]
  · intro hd
    unfold ensure_virtual_env
    simp [hd]

/-- Evaluation of C3 on the sample environment "/root/demo". -/
theorem ensure_virtual_env_trichotomy_witness :
    ensure_virtual_env cfgW fsW ["root", "demo"] = .ok (normAbs ["root", "demo"])
    ∧ is_virtual_env cfgW fsW (normAbs ["root", "demo"]) = true :=
  (ensure_virtual_env_trichotomy cfgW fsW ["root", "demo"]).1 (by rfl)

/-- C5: deleting the currently active environment with
`ignore_active = False` fails with the environment-active error before any
prompt and without touching the filesystem. -/
theorem delete_snape_env_active_refused (cfg : SnapeConfig) (fs : List Entry)
    (askFn : String → Bool → Bool) (rmtreeFn : List Entry → List String → List Entry)
    (env : List String) (do_ask : Bool)
    (hvalid : is_virtual_env cfg fs env = true)
    (hactive : is_active_virtual_env cfg env = true) :
    delete_snape_env cfg fs askFn rmtreeFn env do_ask false
      = (.error .environmentActive, [], fs) := by
  unfold delete_snape_env
  simp [hactive]

/-- Evaluation of C5: "/root/demo" is active in `cfgActive`. -/
theorem delete_snape_env_active_refused_witness :
    delete_snape_env cfgActive fsW askNo rmKeep ["root", "demo"] true false
      = (.error .environmentActive, [], fsW) :=
  delete_snape_env_active_refused cfgActive fsW askNo rmKeep ["root", "demo"] true
    (by rfl) (by rfl)

/-- C6: when the target of `create_new_snape_env` exists as a valid
environment and the overwrite policy is "ask" (`overwrite = None`), a
negative answer to the overwrite prompt returns `None` (no error) and
performs no filesystem mutation. -/
theorem create_new_snape_env_declined_noop (cfg : SnapeConfig) (fs : List Entry)
    (askFn : String → Bool → Bool) (env : List String) (autoupdate : Bool)
    (prompt : Option String) (env_name : Option String)
    (hname : cfg.forbidden.contains (pathName env) = false)
    (hdir : isDir fs env = true)
    (hvenv : is_virtual_env cfg fs env = true)
    (hask : askFn (overwritePromptMsg (createDisplayName cfg env env_name)) false = false) :
    create_new_snape_env cfg fs askFn env none autoupdate prompt env_name
      = (.ok none,
         [FsAction.prompt (overwritePromptMsg (createDisplayName cfg env env_name)) false])
    ∧ ((create_new_snape_env cfg fs askFn env none autoupdate prompt env_name).2.any
        FsAction.isMutation) = false := by
  have hfile : isFile fs env = false := isDir_isFile_false fs env hdir
  have heq : create_new_snape_env cfg fs askFn env none autoupdate prompt env_name
      = (.ok none,
         [FsAction.prompt (overwritePromptMsg (createDisplayName cfg env env_name)) false]) := by
    have hname' : pathName env ∉ cfg.forbidden := by simpa using hname
    unfold create_new_snape_env
    simp [hname', hfile, hdir, hvenv, hask]
  refine ⟨heq, ?_⟩
  rw [heq]
  rfl

/-- Evaluation of C6 on the sample environment "/root/demo" with an
operator answering "no". -/
theorem create_new_snape_env_declined_noop_witness :
    create_new_snape_env cfgW fsW askNo ["root", "demo"] none false none none
      = (.ok none,
         [FsAction.prompt (overwritePromptMsg (createDisplayName cfgW ["root", "demo"] none)) false])
    ∧ ((create_new_snape_env cfgW fsW askNo ["root", "demo"] none false none none).2.any
        FsAction.isMutation) = false :=
  create_new_snape_env_declined_noop cfgW fsW askNo ["root", "demo"] false none none
    (by rfl) (by rfl) (by rfl) (by rfl)

/-- C4 counterexample: "/root/here" exists as a regular file, but its name
is in the forbidden set, so `create_new_snape_env` fails with the
illegal-name error (`NameError`), not with `NotADirectoryError` as the
claim states for every regular-file target. -/
theorem create_new_snape_env_file_cex :
    isFile fsFileHere ["root", "here"] = true
    ∧ (create_new_snape_env cfgW fsFileHere askNo ["root", "here"] none false none none)
        = (.error .illegalName, [])
    ∧ SnapeErr.illegalName ≠ SnapeErr.notADirectory :=
  ⟨rfl, rfl, by decide⟩

/-- C4 (amended): provided the target's final component is not a forbidden
name (otherwise the illegal-name check fires first), `create_new_snape_env`
never destroys a non-environment: a regular-file target fails with
`NotADirectoryError` and an existing non-environment directory fails with
`IsADirectoryError` (path occupied), under every overwrite policy and
before any filesystem mutation (the returned trace is empty). -/
theorem create_new_snape_env_never_destroys (cfg : SnapeConfig) (fs : List Entry)
    (askFn : String → Bool → Bool) (env : List String) (overwrite : Option Bool)
    (autoupdate : Bool) (prompt : Option String) (env_name : Option String)
    (hname : cfg.forbidden.contains (pathName env) = false) :
    (isFile fs env = true →
      create_new_snape_env cfg fs askFn env overwrite autoupdate prompt env_name
        = (.error .notADirectory, [])) ∧
    (isDir fs env = true → is_virtual_env cfg fs env = false →
      create_new_snape_env cfg fs askFn env overwrite autoupdate prompt env_name
        = (.error .pathOccupied, [])) := by
  have hname' : pathName env ∉ cfg.forbidden := by simpa using hname
  constructor
  · intro hfile
    unfold create_new_snape_env
    simp [hname', hfile]
  · intro hdir hvenv
    have hfile : isFile fs env = false := isDir_isFile_false fs env hdir
    unfold create_new_snape_env
    simp [hname', hfile, hdir, hvenv]

/-- Evaluation of C4 on a regular file "/root/f" and on a non-environment
directory "/root/d". -/
theorem create_new_snape_env_never_destroys_witness :
    create_new_snape_env cfgW fsPlainFile askNo ["root", "f"] none false none none
      = (.error .notADirectory, [])
    ∧ create_new_snape_env cfgW fsPlainDir askNo ["root", "d"] (some true) false none none
      = (.error .pathOccupied, []) :=
  ⟨(create_new_snape_env_never_destroys cfgW fsPlainFile askNo ["root", "f"] none false
      none none (by rfl)).1 (by rfl),
   (create_new_snape_env_never_destroys cfgW fsPlainDir askNo ["root", "d"] (some true) false
      none none (by rfl)).2 (by rfl) (by rfl)⟩

/-- C10: every successful `create_new_snape_env` writes a `.gitignore`
file containing the single line "*" inside the new environment directory,
and returns the canonicalised environment path. -/
theorem create_new_snape_env_writes_gitignore (cfg : SnapeConfig) (fs : List Entry)
    (askFn : String → Bool → Bool) (env : List String) (overwrite : Option Bool)
    (autoupdate : Bool) (prompt : Option String) (env_name : Option String)
    (p : List String)
    (hok : (create_new_snape_env cfg fs askFn env overwrite autoupdate prompt env_name).1
      = .ok (some p)) :
    FsAction.fileWrite (env ++ [".gitignore"]) "*\n"
      ∈ (create_new_snape_env cfg fs askFn env overwrite autoupdate prompt env_name).2
    ∧ p = normAbs env := by
  unfold create_new_snape_env at hok ⊢
  cases h1 : cfg.forbidden.contains (pathName env) <;> simp only [h1] at hok ⊢
  · cases h2 : isFile fs env <;> simp only [h2] at hok ⊢
    · cases h3 : isDir fs env <;> simp only [h3] at hok ⊢
      · simp only [if_true, if_false, Bool.false_eq_true, reduceIte] at hok ⊢
        simp at hok ⊢
        exact hok.symm
      · simp only [if_true, Bool.true_eq_false, reduceIte] at hok ⊢
        cases h4 : is_virtual_env cfg fs env <;> simp only [h4] at hok ⊢
        · simp at hok
        · simp only [Bool.not_true, Bool.false_eq_true, reduceIte] at hok ⊢
          cases overwrite with
          | none =>
            cases h5 : askFn (overwritePromptMsg (createDisplayName cfg env env_name)) false
              <;> simp only [h5] at hok ⊢
            · simp at hok
            · simp at hok ⊢
              exact hok.symm
          | some ow =>
            simp at hok ⊢
            exact hok.symm
    · simp at hok
  · simp at hok

/-- Evaluation of C10: creating "/root/x" on an empty tree records the
`.gitignore` write. -/
theorem create_new_snape_env_writes_gitignore_witness :
    FsAction.fileWrite (["root", "x"] ++ [".gitignore"]) "*\n"
      ∈ (create_new_snape_env cfgW [] askNo ["root", "x"] none false none none).2
    ∧ (["root", "x"] : List String) = normAbs ["root", "x"] :=
  create_new_snape_env_writes_gitignore cfgW [] askNo ["root", "x"] none false none none
    ["root", "x"] (by rfl)

/-- C7: once past the active-environment guard, `delete_snape_env` with an
operator answering `answer` to every confirmation behaves as follows: a
negative answer to a requested confirmation raises the cancellation signal
and performs no deletion (the filesystem is returned unchanged and the
trace holds no mutation); otherwise the tree is removed via `rmtree` and
only afterwards existence is re-checked: the call fails with the
deletion-incomplete error exactly when the path is still a directory. -/
theorem delete_snape_env_confirm_recheck (cfg : SnapeConfig) (fs : List Entry)
    (askFn : String → Bool → Bool) (rmtreeFn : List Entry → List String → List Entry)
    (env : List String) (do_ask ignore_active answer : Bool)
    (hGuard : ignore_active = true ∨ is_active_virtual_env cfg env = false)
    (hResp : ∀ q, askFn q false = answer) :
    (do_ask = true → answer = false →
      (delete_snape_env cfg fs askFn rmtreeFn env do_ask ignore_active).1 = .error .cancel
      ∧ (delete_snape_env cfg fs askFn rmtreeFn env do_ask ignore_active).2.2 = fs
      ∧ ((delete_snape_env cfg fs askFn rmtreeFn env do_ask ignore_active).2.1.any
          FsAction.isMutation) = false) ∧
    (do_ask = false ∨ answer = true →
      (delete_snape_env cfg fs askFn rmtreeFn env do_ask ignore_active).2.2 = rmtreeFn fs env
      ∧ FsAction.rmtree env ∈ (delete_snape_env cfg fs askFn rmtreeFn env do_ask ignore_active).2.1
      ∧ ((delete_snape_env cfg fs askFn rmtreeFn env do_ask ignore_active).1
          = .error .deletionIncomplete ↔ isDir (rmtreeFn fs env) env = true)
      ∧ ((delete_snape_env cfg fs askFn rmtreeFn env do_ask ignore_active).1
          = .ok () ↔ isDir (rmtreeFn fs env) env = false)) := by
  have hguard : (!ignore_active && is_active_virtual_env cfg env) = false := by
    rcases hGuard with h | h <;> simp [h]
  constructor
  · intro hdo hans
    subst hdo
    unfold delete_snape_env
    rw [hguard]
    simp only [Bool.false_eq_true, reduceIte, Bool.not_true]
    rw [hResp, hans]
    simp [FsAction.isMutation]
  · intro hconf
    unfold delete_snape_env
    rw [hguard]
    simp only [Bool.false_eq_true, reduceIte]
    rcases hconf with h | h
    · subst h
      simp only [Bool.not_false, if_true]
      cases hd : isDir (rmtreeFn fs env) env <;> simp [hd]
    · cases hdo : do_ask
      · simp only [Bool.not_false, if_true]
        cases hd : isDir (rmtreeFn fs env) env <;> simp [hd]
      · simp only [Bool.not_true, Bool.false_eq_true, reduceIte]
        rw [hResp, h]
        simp only [if_true]
        cases hd : isDir (rmtreeFn fs env) env <;> simp [hd]

/-- Evaluation of C7: a declined confirmation on "/root/demo" with a
removal that leaves everything in place, and an unprompted deletion with a
removal that empties the tree. -/
theorem delete_snape_env_confirm_recheck_witness :
    ((delete_snape_env cfgW fsW askNo rmKeep ["root", "demo"] true false).1 = .error .cancel
      ∧ (delete_snape_env cfgW fsW askNo rmKeep ["root", "demo"] true false).2.2 = fsW
      ∧ ((delete_snape_env cfgW fsW askNo rmKeep ["root", "demo"] true false).2.1.any
          FsAction.isMutation) = false)
    ∧ ((delete_snape_env cfgW fsW askNo rmAll ["root", "demo"] false false).2.2
        = rmAll fsW ["root", "demo"]
      ∧ FsAction.rmtree ["root", "demo"]
          ∈ (delete_snape_env cfgW fsW askNo rmAll ["root", "demo"] false false).2.1
      ∧ ((delete_snape_env cfgW fsW askNo rmAll ["root", "demo"] false false).1
          = .error .deletionIncomplete ↔ isDir (rmAll fsW ["root", "demo"]) ["root", "demo"] = true)
      ∧ ((delete_snape_env cfgW fsW askNo rmAll ["root", "demo"] false false).1
          = .ok () ↔ isDir (rmAll fsW ["root", "demo"]) ["root", "demo"] = false)) :=
  ⟨(delete_snape_env_confirm_recheck cfgW fsW askNo rmKeep ["root", "demo"] true false false
      (Or.inr rfl) (fun _ => rfl)).1 rfl rfl,
   (delete_snape_env_confirm_recheck cfgW fsW askNo rmAll ["root", "demo"] false false false
      (Or.inr rfl) (fun _ => rfl)).2 (Or.inl rfl)⟩

/-! ### C1: name/path round trip -/

theorem pySplitSlash_ne_nil (s : String) : pySplitSlash s ≠ [] := by
  unfold pySplitSlash
  simp [splitSlash_ne_nil]

theorem parseParts_of_normal (n : String)
    (hn : ∀ c ∈ pySplitSlash n, normalComp c = true) :
    parseParts n = pySplitSlash n := by
  unfold parseParts
  rw [List.filter_eq_self]
  intro c hc
  have := hn c hc
  unfold normalComp at this
  simp only [Bool.not_eq_true', Bool.or_eq_false_iff] at this ⊢
  exact ⟨this.1.1, this.1.2⟩

theorem isAbsStr_false_of_normal (n : String)
    (hn : ∀ c ∈ pySplitSlash n, normalComp c = true) :
    isAbsStr n = false := by
  cases hl : n.toList with
  | nil => unfold isAbsStr; rw [hl]
  | cons c t =>
    have hc : c ≠ '/' := by
      intro hc
      subst hc
      have hmem : ("" : String) ∈ pySplitSlash n := by
        unfold pySplitSlash
        rw [hl]
        simp [splitSlash]
      have h2 := hn "" hmem
      simp [normalComp] at h2
    unfold isAbsStr
    rw [hl]
    exact beq_eq_false_iff_ne.mpr hc

theorem nameLoopF_append (root : List String) (s : List String) :
    s ≠ [] → ∀ fuel, s.length ≤ fuel + 1 → nameLoopF root fuel (root ++ s) = s.reverse := by
  induction s using List.reverseRecOn with
  | nil => intro hs; exact absurd rfl hs
  | append_singleton cs c ih =>
    intro _ fuel hlen
    rw [← List.append_assoc]
    have hname : pathName ((root ++ cs) ++ [c]) = c := by
      unfold pathName
      rw [List.getLastD_concat]
    by_cases hcs : cs = []
    · subst hcs
      simp only [List.append_nil] at hname ⊢
      cases fuel with
      | zero => simp [nameLoopF, hname]
      | succ f =>
        simp only [nameLoopF]
        rw [List.dropLast_concat]
        simp [hname]
    · have hne : ((root ++ cs) == root) = false := by
        rw [beq_eq_false_iff_ne]
        intro h
        have := congrArg List.length h
        simp only [List.length_append] at this
        have : cs.length = 0 := by omega
        exact hcs (List.length_eq_zero.mp this)
      cases fuel with
      | zero =>
        exfalso
        simp only [List.length_append, List.length_singleton] at hlen
        have : 0 < cs.length := List.length_pos.mpr hcs
        omega
      | succ f =>
        simp only [nameLoopF]
        rw [List.dropLast_concat]
        have hempty : ((root ++ cs) ++ [c]).isEmpty = false := by simp
        rw [hempty, hne]
        simp only [Bool.or_self, Bool.false_eq_true, reduceIte]
        rw [hname, ih hcs f (by simp at hlen; omega)]
        simp

/-- C1 counterexample: with the sample configuration, the name "." is
legal in the claim's sense (non-empty, not forbidden), but it resolves to
the global root itself, whose canonical name is `None`, and resolving that
name again raises the argument-conflict `RuntimeError` instead of
returning the original path. -/
theorem get_snape_env_path_roundtrip_cex :
    cfgW.forbidden.contains "." = false
    ∧ "." ≠ ""
    ∧ get_snape_env_path cfgW (some ".") false true = .ok ["root"]
    ∧ get_snape_env_name cfgW ["root"] = none
    ∧ get_snape_env_path cfgW (get_snape_env_name cfgW ["root"]) false true
        = .error .noNameConflict :=
  ⟨rfl, by decide, rfl, rfl, rfl⟩

/-- C1 (amended): for every name `n` that is not forbidden and whose
slash-separated components are all normal (non-empty, not "." and not
".."), resolving `n` globally, taking the canonical name of the resulting
path, and resolving again yields the original path:
the canonical name is exactly `n`, so the two resolutions agree.
(The canonical global root is assumed normalised, as `SNAPE_ROOT_PATH` is
built with `absolute_path` at startup.) -/
theorem get_snape_env_path_name_roundtrip (cfg : SnapeConfig) (n : String)
    (hroot : normAbs cfg.snapeRoot = cfg.snapeRoot)
    (hn : ∀ c ∈ pySplitSlash n, normalComp c = true)
    (hforbid : cfg.forbidden.contains n = false) :
    get_snape_env_path cfg (get_snape_env_name cfg (normAbs (pathJoin cfg.snapeRoot n)))
        false true
      = get_snape_env_path cfg (some n) false true
    ∧ get_snape_env_path cfg (some n) false true
      = .ok (normAbs (pathJoin cfg.snapeRoot n)) := by
  have hparse : parseParts n = pySplitSlash n := parseParts_of_normal n hn
  have habs : isAbsStr n = false := isAbsStr_false_of_normal n hn
  have hne : pySplitSlash n ≠ [] := pySplitSlash_ne_nil n
  have hn0 : n ≠ "" := by
    intro h
    subst h
    have hmem : ("" : String) ∈ pySplitSlash "" := by
      unfold pySplitSlash
      simp [splitSlash]
    have := hn "" hmem
    simp [normalComp] at this
  have hjoin : pathJoin cfg.snapeRoot n = cfg.snapeRoot ++ pySplitSlash n := by
    unfold pathJoin
    rw [if_neg (by simp [habs]), hparse]
  have hp : normAbs (pathJoin cfg.snapeRoot n) = cfg.snapeRoot ++ pySplitSlash n := by
    rw [hjoin, normAbs_append_normal _ _ hn, hroot]
  have hname : get_snape_env_name cfg (normAbs (pathJoin cfg.snapeRoot n)) = some n := by
    rw [hp]
    unfold get_snape_env_name
    have he : normAbs (cfg.snapeRoot ++ pySplitSlash n) = cfg.snapeRoot ++ pySplitSlash n := by
      rw [normAbs_append_normal _ _ hn, hroot]
    rw [he]
    have hsb : strictlyBelow cfg.snapeRoot (cfg.snapeRoot ++ pySplitSlash n) = true :=
      (strictlyBelow_iff _ _).mpr ⟨pySplitSlash n, hne, rfl⟩
    rw [if_pos hsb]
    rw [nameLoopF_append cfg.snapeRoot (pySplitSlash n) hne _
      (by simp only [List.length_append]; omega)]
    rw [List.reverse_reverse, pyJoinSlash_pySplitSlash]
  refine ⟨by rw [hname], ?_⟩
  have hforbid' : n ∉ cfg.forbidden := by simpa using hforbid
  simp [get_snape_env_path, hforbid', hn0]

/-- Evaluation of C1 on the nested name "team/proj". -/
theorem get_snape_env_path_name_roundtrip_witness :
    get_snape_env_path cfgW
        (get_snape_env_name cfgW (normAbs (pathJoin cfgW.snapeRoot "team/proj"))) false true
      = get_snape_env_path cfgW (some "team/proj") false true
    ∧ get_snape_env_path cfgW (some "team/proj") false true
      = .ok (normAbs (pathJoin cfgW.snapeRoot "team/proj")) :=
  get_snape_env_path_name_roundtrip cfgW "team/proj" (by rfl) (by decide) (by rfl)

/-! ### C9: the local-environment lookup -/

theorem iter_local_head (cfg : SnapeConfig) (fs : List Entry) (cwd : List String) :
    (iter_local_snape_envs cfg fs cwd).head?
      = ((ancestorChain cwd).find?
          (fun a => is_virtual_env cfg fs (pathJoin a cfg.snapeVenv))).map
          (fun a => pathJoin a cfg.snapeVenv) := by
  induction cwd using List.reverseRecOn with
  | nil => simp [iter_local_snape_envs, ancestorChain]
  | append_singleton xs x ih =>
    have hne : xs ++ [x] ≠ [] := by simp
    rw [iter_local_snape_envs.eq_def, ancestorChain.eq_def]
    rw [dif_neg hne, dif_neg hne, List.dropLast_concat]
    cases hv : is_virtual_env cfg fs (pathJoin (xs ++ [x]) cfg.snapeVenv)
    · rw [if_neg (by simp [hv]), List.find?_cons_of_neg _ (by simp [hv])]
      simpa using ih
    · rw [if_pos (by simp [hv]), List.find?_cons_of_pos _ (by simp [hv])]
      simp

/-- C9: with no valid local environment in the working directory or any
ancestor (the filesystem root excluded), `get_local_snape_env` raises the
built-in `StopIteration` (from the defaultless `next(generator)`) instead
of returning `None` as its annotation `VirtualEnv | None` suggests;
otherwise it returns the first environment the upward walk yields. -/
theorem get_local_snape_env_spec (cfg : SnapeConfig) (fs : List Entry)
    (cwd : List String) :
    get_local_snape_env cfg fs cwd
      = match (ancestorChain cwd).find?
            (fun a => is_virtual_env cfg fs (pathJoin a cfg.snapeVenv)) with
        | none => .error .stopIteration
        | some a => .ok (pathJoin a cfg.snapeVenv) := by
  have h := iter_local_head cfg fs cwd
  unfold get_local_snape_env
  cases hi : iter_local_snape_envs cfg fs cwd with
  | nil =>
    rw [hi] at h
    simp only [List.head?_nil] at h
    cases hf : (ancestorChain cwd).find?
        (fun a => is_virtual_env cfg fs (pathJoin a cfg.snapeVenv)) with
    | none => rfl
    | some a => rw [hf] at h; simp at h
  | cons e rest =>
    rw [hi] at h
    simp only [List.head?_cons] at h
    cases hf : (ancestorChain cwd).find?
        (fun a => is_virtual_env cfg fs (pathJoin a cfg.snapeVenv)) with
    | none => rw [hf] at h; simp at h
    | some a =>
      rw [hf] at h
      simp only [Option.map_some', Option.some.injEq] at h
      rw [h]

/-! ### C8: attach / detach are no-ops on identical source and destination -/

/-- C8: whenever the resolved destination of the package-set copy equals
the resolved source, both `snape_attach` and `snape_detach` return
immediately with `None` ("Nothing to do"): no environment is created, no
packages are installed, no source is deleted, and the action trace is
empty. -/
theorem copy_same_path_noop (cfg : SnapeConfig) (fs : List Entry)
    (askFn : String → Bool → Bool) (rmtreeFn : List Entry → List String → List Entry)
    (pipFreeze : List String → Option (List String)) (pipInstallOk : Bool)
    (env : String) (here : Bool) (global_name : Option String)
    (ignore_active do_ask do_update overwrite delete_old requirements_quiet : Bool)
    (path : String) (here2 : Bool) (gname2 : Option String) (overwrite2 : Option Bool)
    (do_update2 delete_old2 rq2 do_ask2 ia2 : Bool)
    (src sp : List String)
    (hsrc : ensure_virtual_env cfg fs (absolutePathStr cfg env) = .ok src)
    (hdst : get_snape_env_path cfg global_name here true = .ok src)
    (hsp : get_snape_env_path cfg gname2 here2 true = .ok sp)
    (hsv : ∃ v, ensure_virtual_env cfg fs sp = .ok v)
    (hpath : absolutePathStr cfg path = sp) :
    snape_attach cfg fs askFn rmtreeFn pipFreeze pipInstallOk env here global_name
        ignore_active do_ask do_update overwrite delete_old requirements_quiet
      = (.ok (), [])
    ∧ snape_detach cfg fs pipFreeze path here2 gname2 overwrite2 do_update2 delete_old2
        rq2 do_ask2 ia2
      = (.ok none, []) := by
  constructor
  · unfold snape_attach
    rw [hsrc]
    cases hroot : src.dropLast == cfg.snapeRoot
    · rw [hdst]
      simp [hroot]
    · simp [hroot]
  · obtain ⟨v, hv⟩ := hsv
    unfold snape_detach
    rw [hsp]
    simp [hv, hpath]

/-- Evaluation of C8: attaching "/w/.venv" as a local environment (the
resolved destination is "/w/.venv" itself) and detaching the local
environment to the path "/w/.venv". -/
theorem copy_same_path_noop_witness :
    snape_attach cfgW fsW askNo rmKeep (fun _ => some []) true "/w/.venv" true none
        false true true false false false
      = (.ok (), [])
    ∧ snape_detach cfgW fsW (fun _ => some []) "/w/.venv" true none none false false
        false true false
      = (.ok none, []) :=
  copy_same_path_noop cfgW fsW askNo rmKeep (fun _ => some []) true "/w/.venv" true none
    false true true false false false "/w/.venv" true none none false false false true false
    ["w", ".venv"] ["w", ".venv"] (by rfl) (by rfl) (by rfl) ⟨["w", ".venv"], by rfl⟩ (by rfl)

/-! ### C2: the enumeration walk never reports nested environments -/

theorem strictlyBelow_false_of_head_ne (root : List String) (a b : String)
    (s t : List String) (hab : a ≠ b) :
    strictlyBelow (root ++ a :: s) (root ++ b :: t) = false := by
  cases hsb : strictlyBelow (root ++ a :: s) (root ++ b :: t)
  · rfl
  · exfalso
    obtain ⟨u, hu, hq⟩ := (strictlyBelow_iff _ _).mp hsb
    rw [List.append_assoc] at hq
    have h2 : b :: t = a :: s ++ u := List.append_cancel_left hq
    simp only [List.cons_append, List.cons.injEq] at h2
    exact hab h2.1.symm

mutual

theorem envsOfEntry_shape (cfg : SnapeConfig) (root : List String) (e : Entry) :
    ∀ p ∈ envsOfEntry cfg root e, ∃ s, p = root ++ e.name :: s := by
  cases e with
  | file n => intro p hp; simp [envsOfEntry] at hp
  | dir n cs =>
    intro p hp
    unfold envsOfEntry at hp
    by_cases hv : venvEntryChildren cfg cs = true
    · rw [if_pos hv] at hp
      simp only [List.mem_singleton] at hp
      exact ⟨[], by rw [hp]; simp [Entry.name]⟩
    · rw [if_neg hv] at hp
      obtain ⟨e', _, s', hps⟩ := envsOfEntries_shape cfg (root ++ [n]) cs p hp
      exact ⟨e'.name :: s', by rw [hps]; simp [Entry.name]⟩

theorem envsOfEntries_shape (cfg : SnapeConfig) (root : List String) (es : List Entry) :
    ∀ p ∈ envsOfEntries cfg root es, ∃ e ∈ es, ∃ s, p = root ++ e.name :: s := by
  cases es with
  | nil => intro p hp; simp [envsOfEntries] at hp
  | cons e es =>
    intro p hp
    unfold envsOfEntries at hp
    rcases List.mem_append.mp hp with h | h
    · obtain ⟨s, hs⟩ := envsOfEntry_shape cfg root e p h
      exact ⟨e, List.mem_cons_self e es, s, hs⟩
    · obtain ⟨e', he', s, hs⟩ := envsOfEntries_shape cfg root es p h
      exact ⟨e', List.mem_cons_of_mem e he', s, hs⟩

end


theorem entriesAllWf_mem (es : List Entry) (e : Entry)
    (hwf : entriesAllWf es = true) (he : e ∈ es) : entryWf e = true := by
  induction es with
  | nil => simp at he
  | cons e' es ih =>
    unfold entriesAllWf at hwf
    simp only [Bool.and_eq_true] at hwf
    rcases List.mem_cons.mp he with h | h
    · rw [h]; exact hwf.1
    · exact ih hwf.2 h

mutual

theorem envsOfEntry_noNest (cfg : SnapeConfig) (root : List String) (e : Entry)
    (hwf : entryWf e = true) :
    ∀ p ∈ envsOfEntry cfg root e, ∀ q ∈ envsOfEntry cfg root e,
      strictlyBelow p q = false := by
  cases e with
  | file n => intro p hp; simp [envsOfEntry] at hp
  | dir n cs =>
    intro p hp q hq
    unfold envsOfEntry at hp hq
    by_cases hv : venvEntryChildren cfg cs = true
    · rw [if_pos hv] at hp hq
      simp only [List.mem_singleton] at hp hq
      rw [hp, hq]
      exact strictlyBelow_irrefl _
    · rw [if_neg hv] at hp hq
      unfold entryWf at hwf
      simp only [Bool.and_eq_true] at hwf
      exact envsOfEntries_noNest cfg (root ++ [n]) cs hwf.1 hwf.2 p hp q hq

theorem envsOfEntries_noNest (cfg : SnapeConfig) (root : List String) (es : List Entry)
    (hwf1 : allDifferent (entryNames es) = true) (hwf2 : entriesAllWf es = true) :
    ∀ p ∈ envsOfEntries cfg root es, ∀ q ∈ envsOfEntries cfg root es,
      strictlyBelow p q = false := by
  cases es with
  | nil => intro p hp; simp [envsOfEntries] at hp
  | cons e es =>
    intro p hp q hq
    unfold envsOfEntries at hp hq
    have hwf1' : (List.map Entry.name es).contains e.name = false
        ∧ allDifferent (List.map Entry.name es) = true := by
      unfold entryNames at hwf1
      rw [List.map_cons] at hwf1
      unfold allDifferent at hwf1
      simpa using hwf1
    have hw11 : e.name ∉ List.map Entry.name es := by simpa using hwf1'.1
    have hw12 : allDifferent (entryNames es) = true := by
      unfold entryNames; exact hwf1'.2
    unfold entriesAllWf at hwf2
    simp only [Bool.and_eq_true] at hwf2
    rcases List.mem_append.mp hp with h1 | h1 <;> rcases List.mem_append.mp hq with h2 | h2
    · exact envsOfEntry_noNest cfg root e hwf2.1 p h1 q h2
    · obtain ⟨s, hs⟩ := envsOfEntry_shape cfg root e p h1
      obtain ⟨e', he', t, ht⟩ := envsOfEntries_shape cfg root es q h2
      rw [hs, ht]
      refine strictlyBelow_false_of_head_ne root e.name e'.name s t ?_
      intro hcontra
      exact hw11 (by rw [hcontra]; exact List.mem_map_of_mem Entry.name he')
    · obtain ⟨e', he', t, ht⟩ := envsOfEntries_shape cfg root es p h1
      obtain ⟨s, hs⟩ := envsOfEntry_shape cfg root e q h2
      rw [hs, ht]
      refine strictlyBelow_false_of_head_ne root e'.name e.name t s ?_
      intro hcontra
      exact hw11 (by rw [← hcontra]; exact List.mem_map_of_mem Entry.name he')
    · exact envsOfEntries_noNest cfg root es hw12 hwf2.2 p h1 q h2

end


theorem lookupIn_wf (p : List String) :
    ∀ (es cs : List Entry), fsWf es = true →
      lookupIn es p = some (.dir cs) → fsWf cs = true := by
  induction p with
  | nil =>
    intro es cs hwf hl
    unfold lookupIn at hl
    simp only [Option.some.injEq, NodeView.dir.injEq] at hl
    rw [← hl]
    exact hwf
  | cons n rest ih =>
    intro es cs hwf hl
    unfold lookupIn at hl
    cases hf : es.find? (fun e => e.name == n) with
    | none => rw [hf] at hl; simp at hl
    | some e =>
      rw [hf] at hl
      cases e with
      | file m =>
        by_cases hr : rest.isEmpty
        · simp [hr] at hl
        · simp [hr] at hl
      | dir m cs' =>
        have hmem : Entry.dir m cs' ∈ es := List.mem_of_find?_eq_some hf
        have hwf' : entryWf (.dir m cs') = true := by
          unfold fsWf at hwf
          simp only [Bool.and_eq_true] at hwf
          exact entriesAllWf_mem es _ hwf.2 hmem
        exact ih cs' cs hwf' hl

theorem noNestedPaths_iff (l : List (List String)) :
    noNestedPaths l = true ↔ ∀ p ∈ l, ∀ q ∈ l, strictlyBelow p q = false := by
  simp [noNestedPaths, List.all_eq_true]

/-- C2: on a well-formed tree, `get_global_snape_envs` (via
`_get_environments`) never returns a path strictly below another returned
path: a valid environment is reported and not descended into, other
directories are recursed into, and files contribute nothing. -/
theorem get_global_snape_envs_no_nesting (cfg : SnapeConfig) (fs : List Entry)
    (hwf : fsWf fs = true) (root' : List String) (n : String) (cs : List Entry) :
    noNestedPaths (get_global_snape_envs cfg fs) = true
    ∧ (venvEntryChildren cfg cs = true →
        envsOfEntry cfg root' (.dir n cs) = [root' ++ [n]])
    ∧ (venvEntryChildren cfg cs = false →
        envsOfEntry cfg root' (.dir n cs) = envsOfEntries cfg (root' ++ [n]) cs)
    ∧ envsOfEntry cfg root' (.file n) = [] := by
  refine ⟨?_, ?_, ?_, ?_⟩
  · unfold get_global_snape_envs _get_environments
    cases hl : lookupIn fs (normAbs cfg.snapeRoot) with
    | none => rfl
    | some v =>
      cases v with
      | file => rfl
      | dir cs' =>
        have hwf' : fsWf cs' = true := lookupIn_wf (normAbs cfg.snapeRoot) fs cs' hwf hl
        unfold fsWf at hwf'
        simp only [Bool.and_eq_true] at hwf'
        rw [noNestedPaths_iff]
        exact envsOfEntries_noNest cfg cfg.snapeRoot cs' hwf'.1 hwf'.2
  · intro hv; unfold envsOfEntry; rw [if_pos hv]
  · intro hv; unfold envsOfEntry; rw [if_neg (by simp [hv])]
  · rfl

/-- Evaluation of C2 on `fsNested`, where the environment "/root/a" itself
contains an environment-shaped subtree at "/root/a/lib" (not reported) and
"/root/b/c" is a nested environment under a plain directory. -/
theorem get_global_snape_envs_no_nesting_witness :
    noNestedPaths (get_global_snape_envs cfgW fsNested) = true
    ∧ (venvEntryChildren cfgW venvCs = true →
        envsOfEntry cfgW ["root"] (.dir "a" venvCs) = [["root"] ++ ["a"]])
    ∧ (venvEntryChildren cfgW venvCs = false →
        envsOfEntry cfgW ["root"] (.dir "a" venvCs)
          = envsOfEntries cfgW (["root"] ++ ["a"]) venvCs)
    ∧ envsOfEntry cfgW ["root"] (.file "a") = [] :=
  get_global_snape_envs_no_nesting cfgW fsNested (by rfl) ["root"] "a" venvCs
